import Mathlib

/-!
Verification of `Scripts/generate_puzzle.py` (jigsaw-puzzle-generator).

The script is a wrapper around an external piece-cutting tool: it validates
arguments, optionally upscales the source image, invokes the cutter, locates
the cutter's highest size-tier output directory, loads three JSON metadata
files, classifies each piece (corner/edge/interior) from its bounding box,
assembles a consolidated metadata document, and prints it as JSON.

Shallow embedding conventions:
  * the filesystem / subprocess world the script observes is a `RunEnv`
    record (does the image exist, what the cutter returned, which directory
    entries exist, contents of the three JSON files, which raster piece
    images exist);
  * the linear control flow of `main` becomes `runMainT`, returning
    `Except PuzzleError (Metadata × List String)` (the `List String` is the
    script's `missing_pieces` local) together with a `Bool` that records
    whether the cutter subprocess invocation point was reached;
  * Python `int(...)` is modelled by `pyInt` (whitespace stripping, optional
    sign, decimal digits; Python's digit-grouping underscores are not
    modelled — no claim depends on them);
  * JSON numeric values are modelled as `Int`, dictionaries as association
    lists in iteration order; adjacency values are modelled after their
    `int(n)` conversion;
  * Python's stable `sorted`/`list.sort` is modelled by Mathlib's
    `List.insertionSort`, which is stable in the same sense.
-/

namespace GeneratePuzzle

/-! ### Python `int()` on strings -/

/-- Whitespace characters that Python's `int()` strips from both ends. -/
def isPySpace (c : Char) : Bool :=
  c = ' ' || c = '\t' || c = '\n' || c = '\r' || c = '\x0b' || c = '\x0c'

/-- Decimal digits to a natural number; `none` on the empty string or any
non-digit character. -/
def digitsToNat : List Char → Option Nat
  | [] => none
  | cs => cs.foldlM (fun acc c =>
      if c.isDigit then some (acc * 10 + (c.toNat - 48)) else none) 0

/-- Python `int(s)` for a decimal string: strip surrounding whitespace,
optional single sign, then digits.  Returns `none` where Python raises
`ValueError`. -/
def pyInt (s : String) : Option Int :=
  let cs := ((s.data.dropWhile isPySpace).reverse.dropWhile isPySpace).reverse
  match cs with
  | '+' :: rest => (digitsToNat rest).map Int.ofNat
  | '-' :: rest => (digitsToNat rest).map (fun n => -(n : Int))
  | rest => (digitsToNat rest).map Int.ofNat

/-! ### `parse_size_dir` and size-directory selection (lines 114-130) -/

/-- The characters after the first `'-'`, if any: models `d.split("-", 1)`,
where the result has a second component exactly when a dash occurs. -/
def afterFirstDash : List Char → Option (List Char)
  | [] => none
  | '-' :: rest => some rest
  | _ :: rest => afterFirstDash rest

/-- `parse_size_dir` from the script: split on the first dash; no dash ⇒ 0;
`int()` failure on the suffix ⇒ 0. -/
def parse_size_dir (d : String) : Int :=
  match afterFirstDash d.data with
  | none => 0
  | some suf => (pyInt (String.mk suf)).getD 0

/-- The directory entries the locator considers:
`[d for d in os.listdir(temp_dir) if d.startswith("size-") ...]`
(the `isdir` part is folded into `RunEnv.dirEntries` being directory names). -/
def sizeDirsOf (entries : List String) : List String :=
  entries.filter (fun d => "size-".data.isPrefixOf d.data)

/-- First element of `size_dirs` after
`size_dirs.sort(key=parse_size_dir, reverse=True)`: the earliest entry with
the maximal parsed value (Python's sort is stable).  `none` iff the list is
empty. -/
def selectSizeDir (ds : List String) : Option String :=
  ds.foldl (fun acc d =>
    match acc with
    | none => some d
    | some b => if parse_size_dir b < parse_size_dir d then some d else some b)
    none

/-! ### Piece classification (lines 190-204) -/

inductive PieceType where
  | corner
  | edge
  | interior
deriving DecidableEq, Repr

/-- `border_count = sum([is_left, is_right, is_top, is_bottom])` with
`is_left = x1 <= 2`, `is_right = x2 >= img_w - 2`, `is_top = y1 <= 2`,
`is_bottom = y2 >= img_h - 2`. -/
def borderCount (imgW imgH x1 y1 x2 y2 : Int) : Nat :=
  (if x1 ≤ 2 then 1 else 0) + (if x2 ≥ imgW - 2 then 1 else 0) +
  (if y1 ≤ 2 then 1 else 0) + (if y2 ≥ imgH - 2 then 1 else 0)

/-- The classification branch: `>= 2 ⇒ corner`, `== 1 ⇒ edge`,
otherwise `interior`. -/
def classify (imgW imgH x1 y1 x2 y2 : Int) : PieceType :=
  if 2 ≤ borderCount imgW imgH x1 y1 x2 y2 then .corner
  else if borderCount imgW imgH x1 y1 x2 y2 = 1 then .edge
  else .interior

/-- Touch count as the specification words it: a side touches when its
coordinate is within 2 pixels of its border (left/top sides against 0,
right/bottom sides against the corresponding image extent). -/
def specTouchCount (imgW imgH x1 y1 x2 y2 : Int) : Nat :=
  (if |x1| ≤ 2 then 1 else 0) + (if |imgW - x2| ≤ 2 then 1 else 0) +
  (if |y1| ≤ 2 then 1 else 0) + (if |imgH - y2| ≤ 2 then 1 else 0)

/-- The classification rule as the specification words it, for comparison
with `classify`. -/
def specClassify (imgW imgH x1 y1 x2 y2 : Int) : PieceType :=
  if 2 ≤ specTouchCount imgW imgH x1 y1 x2 y2 then .corner
  else if specTouchCount imgW imgH x1 y1 x2 y2 = 1 then .edge
  else .interior

/-! ### Image pre-processor resize arithmetic (lines 48-60)

`scale = 2000 / longest; new_w = int(w * scale); new_h = int(h * scale)`.
Python computes `scale` in IEEE double arithmetic; the embedding idealises
it as exact rational arithmetic, under which `int(x * (2000 / longest))`
is `⌊x * 2000 / longest⌋`, i.e. natural-number division. -/

def MIN_LONG_SIDE : Nat := 2000

/-- The new pixel dimensions `ensure_minimum_resolution` produces (exact
arithmetic model; the threshold branch returns the image unchanged). -/
def resizeDims (w h : Nat) : Nat × Nat :=
  let longest := max w h
  if MIN_LONG_SIDE ≤ longest then (w, h)
  else (w * MIN_LONG_SIDE / longest, h * MIN_LONG_SIDE / longest)

/-! ### Error taxonomy

Every call of `error_exit(msg)` in the script becomes one constructor;
`unexpected` is the `__main__` catch-all for uncaught exceptions (e.g. the
`IndexError`/`ValueError` a malformed geometry entry or key raises). -/

inductive PuzzleError where
  | usage
  | badPieceCount (arg : String)
  | tooFewPieces (n : Int)
  | imageNotFound (path : String)
  | pillowMissing
  | imageOpenFailed (exc : String)
  | toolNotFound
  | toolTimeout
  | toolFailed (stderr : String)
  | noOutput
  | missingMetadata (path : String)
  | corruptMetadata (file : String) (exc : String)
  | emptyResult
  | unexpected
deriving DecidableEq, Repr

/-! ### Data model of the cutter's outputs -/

/-- Outcome of the `subprocess.run` call on the cutter. -/
inductive CutterOutcome where
  | notFound
  | timeout
  | exited (returncode : Int) (stderr : String)
deriving DecidableEq, Repr

/-- State of one of the cutter's JSON files as the script reads it
(`corrupt` carries the `JSONDecodeError` text). -/
inductive JsonFile (α : Type) where
  | absent
  | corrupt (exc : String)
  | ok (data : α)
deriving DecidableEq, Repr

/-- The two fields of `index.json` the script reads, each possibly absent
(`index_data.get(key, 0)`). -/
structure IndexData where
  image_width : Option Int
  image_height : Option Int
deriving DecidableEq, Repr

/-- `pieces.json`: piece id ↦ array whose first four entries are the bounding
box and last two the rendered width/height (dict in iteration order). -/
abbrev PiecesData := List (String × List Int)

/-- `adjacent.json`: piece id ↦ neighbour ids (values after `int(n)`). -/
abbrev AdjData := List (String × List Int)

/-- Everything the script observes from the outside world in one run. -/
structure RunEnv where
  /-- `os.path.exists(image_path)` -/
  imageExists : Bool
  /-- whether `from PIL import Image` succeeds -/
  pillowInstalled : Bool
  /-- `Image.open` result: pixel size, or the exception text if it raises -/
  imageLoad : Except String (Nat × Nat)
  /-- outcome of the cutter subprocess -/
  cutter : CutterOutcome
  /-- directory-typed entries of `os.listdir(temp_dir)` -/
  dirEntries : List String
  indexFile : JsonFile IndexData
  adjacentFile : JsonFile AdjData
  /-- `pieces.json` of a given size directory -/
  piecesFile : String → JsonFile PiecesData
  /-- whether `<size_dir>/raster/image-0/<pid>.png` exists -/
  rasterHas : String → String → Bool

/-! ### One piece's metadata entry (the dict built at lines 206-213) -/

structure PieceMeta where
  /-- `int(pid)` -/
  id : Int
  /-- the original string key, from which `filename = "piece_{pid}.png"` -/
  pid : String
  x1 : Int
  y1 : Int
  x2 : Int
  y2 : Int
  width : Int
  height : Int
  type : PieceType
  neighbours : List Int
deriving DecidableEq, Repr

/-- The final metadata document (lines 227-236). -/
structure Metadata where
  piece_count : Nat
  image_width : Int
  image_height : Int
  requested_pieces : Int
  pieces : List PieceMeta
  warning : Option String
deriving DecidableEq, Repr

/-- `f"{len(missing_pieces)} piece image(s) were missing: {', '.join(missing_pieces)}"` -/
def warningText (missing : List String) : String :=
  toString missing.length ++ " piece image(s) were missing: "
    ++ String.intercalate ", " missing

/-! ### Pipeline stages -/

/-- Argument validation (lines 64-76): arity, integer parse, minimum 2. -/
def checkArgs (argv : List String) : Except PuzzleError (String × String × Int) :=
  match argv with
  | [imagePath, outputDir, nStr] =>
    match pyInt nStr with
    | none => .error (.badPieceCount nStr)
    | some n => if n < 2 then .error (.tooFewPieces n) else .ok (imagePath, outputDir, n)
  | _ => .error .usage

/-- `ensure_minimum_resolution` (lines 35-60): Pillow import, image open,
then the resize arithmetic.  Returns the dimensions the cutter will see. -/
def ensure_minimum_resolution (env : RunEnv) : Except PuzzleError (Nat × Nat) :=
  if env.pillowInstalled then
    match env.imageLoad with
    | .error e => .error (.imageOpenFailed e)
    | .ok (w, h) => .ok (resizeDims w h)
  else .error .pillowMissing

/-- The cutter invocation (lines 91-111). -/
def runCutter (env : RunEnv) : Except PuzzleError Unit :=
  match env.cutter with
  | .notFound => .error .toolNotFound
  | .timeout => .error .toolTimeout
  | .exited rc stderr => if rc ≠ 0 then .error (.toolFailed stderr) else .ok ()

/-- Loading one JSON file (each of the three try/except blocks at
lines 137-159): the missing-file message names the full path, the
corrupt-file message names the basename plus the parse exception. -/
def loadJson {α : Type} (f : JsonFile α) (path base : String) :
    Except PuzzleError α :=
  match f with
  | .absent => .error (.missingMetadata path)
  | .corrupt e => .error (.corruptMetadata base e)
  | .ok a => .ok a

/-- `adjacent_data.get(pid, [])` -/
def adjGet (adj : AdjData) (pid : String) : List Int :=
  match adj.find? (fun e => e.1 = pid) with
  | some e => e.2
  | none => []

/-- Parse every dict key with `int()`, pairing each geometry entry with its
parsed id; `none` as soon as any key fails (that `ValueError` is caught only
by the catch-all). -/
def parseKeys : PiecesData → Option (List (Int × String × List Int))
  | [] => some []
  | e :: rest =>
    match pyInt e.1, parseKeys rest with
    | some k, some l => some ((k, e.1, e.2) :: l)
    | _, _ => none

/-- `sorted(pieces_data.keys(), key=lambda x: int(x))`, carrying along the
parsed id and the geometry entry. -/
def sortKeys (pd : PiecesData) : Except PuzzleError (List (Int × String × List Int)) :=
  match parseKeys pd with
  | none => .error .unexpected
  | some l => .ok (l.insertionSort (fun a b => a.1 ≤ b.1))

/-- The piece dict built for one id at lines 183-213 (`pdata.length ≥ 4`
is checked by the caller; out-of-range defaults are never reached). -/
def mkPiece (imgW imgH : Int) (adj : AdjData) (k : Int) (pid : String)
    (pdata : List Int) : PieceMeta :=
  { id := k
    pid := pid
    x1 := pdata.getD 0 0
    y1 := pdata.getD 1 0
    x2 := pdata.getD 2 0
    y2 := pdata.getD 3 0
    width := pdata.getD (pdata.length - 2) 0
    height := pdata.getD (pdata.length - 1) 0
    type := classify imgW imgH (pdata.getD 0 0) (pdata.getD 1 0)
      (pdata.getD 2 0) (pdata.getD 3 0)
    neighbours := adjGet adj pid }

/-- The per-piece loop (lines 174-213): skip and record ids whose raster
image is absent; a geometry entry shorter than the four accessed indices
raises `IndexError` (caught by the catch-all) — note the raster check
happens first, so a short entry for a missing piece is never touched. -/
def buildPieces (imgW imgH : Int) (adj : AdjData) (has : String → Bool) :
    List (Int × String × List Int) →
      Except PuzzleError (List PieceMeta × List String)
  | [] => .ok ([], [])
  | (k, pid, pdata) :: rest =>
    if has pid then
      if pdata.length < 4 then .error .unexpected
      else
        match buildPieces imgW imgH adj has rest with
        | .error e => .error e
        | .ok (ps, ms) => .ok (mkPiece imgW imgH adj k pid pdata :: ps, ms)
    else
      match buildPieces imgW imgH adj has rest with
      | .error e => .error e
      | .ok (ps, ms) => .ok (ps, pid :: ms)

/-- Classification, assembly and the empty-result check (lines 170-236),
given the three loaded documents. -/
def assembleStage (numPieces : Int) (index : IndexData) (adj : AdjData)
    (pd : PiecesData) (has : String → Bool) :
    Except PuzzleError (Metadata × List String) :=
  match sortKeys pd with
  | .error e => .error e
  | .ok sorted =>
    match buildPieces (index.image_width.getD 0) (index.image_height.getD 0)
        adj has sorted with
    | .error e => .error e
    | .ok (ps, ms) =>
      if ps.isEmpty then .error .emptyResult
      else
        .ok ({ piece_count := ps.length
               image_width := index.image_width.getD 0
               image_height := index.image_height.getD 0
               requested_pieces := numPieces
               pieces := ps
               warning := if ms.isEmpty then none else some (warningText ms) }, ms)

/-- The whole of `main`, with a `Bool` recording whether control reached the
`subprocess.run` call on the cutter. -/
def runMainT (argv : List String) (env : RunEnv) :
    Except PuzzleError (Metadata × List String) × Bool :=
  match checkArgs argv with
  | .error e => (.error e, false)
  | .ok (imagePath, outputDir, n) =>
    if env.imageExists then
      match ensure_minimum_resolution env with
      | .error e => (.error e, false)
      | .ok _ =>
        match runCutter env with
        | .error e => (.error e, true)
        | .ok _ =>
          (match selectSizeDir (sizeDirsOf env.dirEntries) with
           | none => .error .noOutput
           | some sel =>
              match loadJson env.indexFile
                  (outputDir ++ "_temp" ++ "/index.json") "index.json" with
              | .error e => .error e
              | .ok index =>
                match loadJson env.adjacentFile
                    (outputDir ++ "_temp" ++ "/adjacent.json") "adjacent.json" with
                | .error e => .error e
                | .ok adj =>
                  match loadJson (env.piecesFile sel)
                      (outputDir ++ "_temp" ++ "/" ++ sel ++ "/pieces.json")
                      "pieces.json" with
                  | .error e => .error e
                  | .ok pd =>
                    assembleStage n index adj pd (env.rasterHas sel), true)
    else (.error (.imageNotFound imagePath), false)

/-- `main`'s result. -/
def runMain (argv : List String) (env : RunEnv) :
    Except PuzzleError (Metadata × List String) :=
  (runMainT argv env).1

/-! ### Standard-output / exit-status contract

`error_exit(message)` prints `json.dumps({"error": message})` and calls
`sys.exit(1)`; on success the script prints `json.dumps(metadata)` and
returns normally (exit 0).  The `__main__` wrapper re-raises `SystemExit`
and routes any other exception through `error_exit` as well, so the model
below covers every termination of the script. -/

/-- The exact `error_exit` message for each error site (f-strings of the
script; the traceback text of the catch-all is abstracted away). -/
def errorMessage : PuzzleError → String
  | .usage => "Usage: generate_puzzle.py <image_path> <output_dir> <num_pieces>"
  | .badPieceCount s => "Invalid piece count: '" ++ s ++ "' is not an integer."
  | .tooFewPieces n => "Need at least 2 pieces, got " ++ toString n ++ "."
  | .imageNotFound p => "Image not found: " ++ p
  | .pillowMissing => "Pillow (PIL) is not installed. Install with: pip3 install Pillow"
  | .imageOpenFailed e => "Could not open image: " ++ e
  | .toolNotFound => "piecemaker not found. Install with: pip3 install piecemaker"
  | .toolTimeout => "piecemaker timed out (>5 minutes)"
  | .toolFailed s => "piecemaker failed: " ++ s
  | .noOutput => "No output directory found from piecemaker"
  | .missingMetadata p => "piecemaker did not produce expected metadata file: " ++ p
  | .corruptMetadata f e => "Corrupt piecemaker metadata (" ++ f ++ "): " ++ e
  | .emptyResult => "No piece image files were found in the piecemaker output."
  | .unexpected => "Unexpected error: "

/-- `json.dumps` escaping of one character (quote, backslash and the common
control characters; `\uXXXX` escapes of other control/non-ASCII characters
are not modelled — no message the script builds contains them). -/
def jsonEscapeChar (c : Char) : List Char :=
  if c = '\\' then ['\\', '\\']
  else if c = '"' then ['\\', '"']
  else if c = '\n' then ['\\', 'n']
  else if c = '\t' then ['\\', 't']
  else if c = '\r' then ['\\', 'r']
  else [c]

/-- A JSON string literal as `json.dumps` renders it. -/
def jsonStr (s : String) : String :=
  "\"" ++ String.mk (s.data.map jsonEscapeChar).flatten ++ "\""

/-- `json.dumps({"error": message})`. -/
def jsonErrObj (message : String) : String :=
  "\x7b\"error\": " ++ jsonStr message ++ "\x7d"

/-- The `"type"` field's JSON value. -/
def typeStr : PieceType → String
  | .corner => "corner"
  | .edge => "edge"
  | .interior => "interior"

/-- One entry of the `"pieces"` array as `json.dumps` renders the dict built
at lines 206-213 (insertion order of keys). -/
def renderPiece (p : PieceMeta) : String :=
  "\x7b\"id\": " ++ toString p.id
    ++ ", \"filename\": " ++ jsonStr ("piece_" ++ p.pid ++ ".png")
    ++ ", \"x1\": " ++ toString p.x1
    ++ ", \"y1\": " ++ toString p.y1
    ++ ", \"x2\": " ++ toString p.x2
    ++ ", \"y2\": " ++ toString p.y2
    ++ ", \"width\": " ++ toString p.width
    ++ ", \"height\": " ++ toString p.height
    ++ ", \"type\": " ++ jsonStr (typeStr p.type)
    ++ ", \"neighbours\": ["
    ++ String.intercalate ", " (p.neighbours.map toString) ++ "]\x7d"

/-- `json.dumps(metadata)` (line 252): compact single-line JSON with keys in
insertion order, the `"warning"` key present only when set. -/
def renderMetadata (md : Metadata) : String :=
  "\x7b\"piece_count\": " ++ toString md.piece_count
    ++ ", \"image_width\": " ++ toString md.image_width
    ++ ", \"image_height\": " ++ toString md.image_height
    ++ ", \"requested_pieces\": " ++ toString md.requested_pieces
    ++ ", \"pieces\": ["
    ++ String.intercalate ", " (md.pieces.map renderPiece) ++ "]"
    ++ (match md.warning with
        | none => ""
        | some w => ", \"warning\": " ++ jsonStr w)
    ++ "\x7d"

/-- The final JSON document printed to stdout, and the process exit status:
success prints the metadata and exits 0, every failure goes through
`error_exit` printing `{"error": message}` and exiting 1. -/
def program (argv : List String) (env : RunEnv) : String × Nat :=
  match runMain argv env with
  | .ok (md, _) => (renderMetadata md, 0)
  | .error e => (jsonErrObj (errorMessage e), 1)

/-! ### Concrete environments used to instantiate the theorems -/

/-- A minimal world (the image path does not exist). -/
def trivEnv : RunEnv :=
  { imageExists := false
    pillowInstalled := true
    imageLoad := .ok (1, 1)
    cutter := .exited 0 ""
    dirEntries := []
    indexFile := .ok ⟨none, none⟩
    adjacentFile := .ok []
    piecesFile := fun _ => .ok []
    rasterHas := fun _ _ => false }

/-- A two-piece `pieces.json` in cutter iteration order. -/
def pdOk : PiecesData :=
  [("2", [100, 0, 3000, 1500, 200, 200]), ("1", [0, 0, 1600, 1500, 160, 150])]

/-- A successful run on a 3000×2000 image: the cutter produced two pieces,
the raster image of piece `"2"` is missing. -/
def envOk : RunEnv :=
  { imageExists := true
    pillowInstalled := true
    imageLoad := .ok (3000, 2000)
    cutter := .exited 0 ""
    dirEntries := ["size-100", "size-33", "raster"]
    indexFile := .ok ⟨some 3000, some 2000⟩
    adjacentFile := .ok [("1", [2]), ("2", [1])]
    piecesFile := fun _ => .ok pdOk
    rasterHas := fun _ pid => pid == "1" }

/-- The metadata document `runMain ["img.png", "out", "10"] envOk` emits. -/
def mdOk : Metadata :=
  { piece_count := 1
    image_width := 3000
    image_height := 2000
    requested_pieces := 10
    pieces := [⟨1, "1", 0, 0, 1600, 1500, 160, 150, .corner, [2]⟩]
    warning := some "1 piece image(s) were missing: 2" }

/-- A run whose cutter output has no `size-` subdirectory at all. -/
def envNoSize : RunEnv :=
  { envOk with dirEntries := ["raster"] }

/-- A run whose `index.json` lacks both dimension keys. -/
def envNoDims : RunEnv :=
  { envOk with
    indexFile := .ok ⟨none, none⟩
    piecesFile := fun _ => .ok [("1", [0, 0, 10, 10, 10, 10])]
    rasterHas := fun _ _ => true }

/-- The metadata document `runMain ["img.png", "out", "4"] envNoDims` emits. -/
def mdNoDims : Metadata :=
  { piece_count := 1
    image_width := 0
    image_height := 0
    requested_pieces := 4
    pieces := [⟨1, "1", 0, 0, 10, 10, 10, 10, .corner, [2]⟩]
    warning := none }

/-- A run whose `index.json` has `image_width` but lacks `image_height`,
with one piece well inside the image. -/
def envHalfDims : RunEnv :=
  { envOk with
    indexFile := .ok ⟨some 5000, none⟩
    piecesFile := fun _ => .ok [("1", [100, 100, 200, 200, 50, 50])]
    rasterHas := fun _ _ => true }

/-! ## Theorems -/

/-! ### Helper lemmas -/

lemma parseKeys_keys {pd : PiecesData} {l : List (Int × String × List Int)}
    (h : parseKeys pd = some l) :
    l.map (fun e => e.2.1) = pd.map (fun e => e.1) ∧ l.length = pd.length := by
  induction pd generalizing l with
  | nil =>
    simp only [parseKeys, Option.some.injEq] at h
    subst h
    simp
  | cons e rest ih =>
    simp only [parseKeys] at h
    split at h
    · rename_i k l' hk hl'
      cases h
      obtain ⟨ih1, ih2⟩ := ih hl'
      simp [ih1, ih2]
    · exact Option.noConfusion h

lemma loadJson_ok_inv {α : Type} {f : JsonFile α} {p b : String} {a : α}
    (h : loadJson f p b = .ok a) : f = .ok a := by
  cases f with
  | absent => exact Except.noConfusion h
  | corrupt e => exact Except.noConfusion h
  | ok x => simpa [loadJson] using h

lemma buildPieces_ok_spec {imgW imgH : Int} {adj : AdjData} {has : String → Bool} :
    ∀ {l : List (Int × String × List Int)} {ps : List PieceMeta} {ms : List String},
    buildPieces imgW imgH adj has l = .ok (ps, ms) →
    ps.map (fun p => p.pid) = (l.filter (fun e => has e.2.1)).map (fun e => e.2.1) ∧
    ps.map (fun p => p.id) = (l.filter (fun e => has e.2.1)).map (fun e => e.1) ∧
    ms = (l.filter (fun e => ! has e.2.1)).map (fun e => e.2.1) ∧
    ps.length + ms.length = l.length ∧
    (∀ p ∈ ps, p.type = classify imgW imgH p.x1 p.y1 p.x2 p.y2) := by
  intro l
  induction l with
  | nil =>
    intro ps ms h
    simp only [buildPieces, Except.ok.injEq, Prod.mk.injEq] at h
    obtain ⟨rfl, rfl⟩ := h
    simp
  | cons e rest ih =>
    intro ps ms h
    obtain ⟨k, pid, pdata⟩ := e
    simp only [buildPieces] at h
    cases hp : has pid with
    | true =>
      rw [if_pos hp] at h
      by_cases hlen : pdata.length < 4
      · rw [if_pos hlen] at h
        exact Except.noConfusion h
      · rw [if_neg hlen] at h
        cases hrec : buildPieces imgW imgH adj has rest with
        | error e' => rw [hrec] at h; exact Except.noConfusion h
        | ok pr =>
          obtain ⟨ps', ms'⟩ := pr
          rw [hrec] at h
          simp only [Except.ok.injEq, Prod.mk.injEq] at h
          obtain ⟨rfl, rfl⟩ := h
          obtain ⟨ih1, ih2, ih3, ih4, ih5⟩ := ih hrec
          refine ⟨?_, ?_, ?_, ?_, ?_⟩
          · simp [List.filter_cons, hp, ih1, mkPiece]
          · simp [List.filter_cons, hp, ih2, mkPiece]
          · simp [List.filter_cons, hp, ih3]
          · simp only [List.length_cons]
            omega
          · intro p hpmem
            rcases List.mem_cons.mp hpmem with rfl | hmem
            · rfl
            · exact ih5 p hmem
    | false =>
      rw [if_neg (by simp [hp])] at h
      cases hrec : buildPieces imgW imgH adj has rest with
      | error e' => rw [hrec] at h; exact Except.noConfusion h
      | ok pr =>
        obtain ⟨ps', ms'⟩ := pr
        rw [hrec] at h
        simp only [Except.ok.injEq, Prod.mk.injEq] at h
        obtain ⟨rfl, rfl⟩ := h
        obtain ⟨ih1, ih2, ih3, ih4, ih5⟩ := ih hrec
        refine ⟨?_, ?_, ?_, ?_, ?_⟩
        · simp [List.filter_cons, hp, ih1]
        · simp [List.filter_cons, hp, ih2]
        · simp [List.filter_cons, hp, ih3]
        · simp only [List.length_cons]
          omega
        · exact ih5

lemma buildPieces_all_missing {imgW imgH : Int} {adj : AdjData}
    {has : String → Bool} :
    ∀ {l : List (Int × String × List Int)},
    (∀ e ∈ l, has e.2.1 = false) →
    buildPieces imgW imgH adj has l = .ok ([], l.map (fun e => e.2.1)) := by
  intro l
  induction l with
  | nil => intro _; rfl
  | cons e rest ih =>
    intro hall
    obtain ⟨k, pid, pdata⟩ := e
    have h0 : has pid = false := hall _ (List.mem_cons_self _ _)
    simp only [buildPieces]
    rw [if_neg (by simp [h0]), ih (fun e he => hall e (List.mem_cons_of_mem _ he))]
    rfl

lemma selectSizeDir_go (ds : List String) :
    ∀ b : String, ∃ sel,
      ds.foldl (fun acc d =>
        match acc with
        | none => some d
        | some b' =>
          if parse_size_dir b' < parse_size_dir d then some d else some b')
        (some b) = some sel ∧
      (sel = b ∨ sel ∈ ds) ∧ parse_size_dir b ≤ parse_size_dir sel ∧
      ∀ d ∈ ds, parse_size_dir d ≤ parse_size_dir sel := by
  induction ds with
  | nil =>
    intro b
    exact ⟨b, rfl, Or.inl rfl, le_refl _, by simp⟩
  | cons d rest ih =>
    intro b
    by_cases hlt : parse_size_dir b < parse_size_dir d
    · obtain ⟨sel, hsel, hmem, hle, hall⟩ := ih d
      refine ⟨sel, ?_, ?_, le_of_lt (lt_of_lt_of_le hlt hle), ?_⟩
      · simpa [hlt] using hsel
      · rcases hmem with rfl | hm
        · exact Or.inr (List.mem_cons_self _ _)
        · exact Or.inr (List.mem_cons_of_mem _ hm)
      · intro x hx
        rcases List.mem_cons.mp hx with rfl | hx'
        · exact hle
        · exact hall x hx'
    · obtain ⟨sel, hsel, hmem, hle, hall⟩ := ih b
      refine ⟨sel, ?_, ?_, hle, ?_⟩
      · simpa [hlt] using hsel
      · rcases hmem with rfl | hm
        · exact Or.inl rfl
        · exact Or.inr (List.mem_cons_of_mem _ hm)
      · intro x hx
        rcases List.mem_cons.mp hx with rfl | hx'
        · exact le_trans (not_lt.mp hlt) hle
        · exact hall x hx'

lemma selectSizeDir_spec {ds : List String} (hne : ds ≠ []) :
    ∃ sel, selectSizeDir ds = some sel ∧ sel ∈ ds ∧
      ∀ d ∈ ds, parse_size_dir d ≤ parse_size_dir sel := by
  cases ds with
  | nil => exact absurd rfl hne
  | cons d rest =>
    obtain ⟨sel, hsel, hmem, hle, hall⟩ := selectSizeDir_go rest d
    refine ⟨sel, ?_, ?_, ?_⟩
    · simpa [selectSizeDir] using hsel
    · rcases hmem with rfl | hm
      · exact List.mem_cons_self _ _
      · exact List.mem_cons_of_mem _ hm
    · intro x hx
      rcases List.mem_cons.mp hx with rfl | hx'
      · exact hle
      · exact hall x hx'

lemma assembleStage_ok_inv {numPieces : Int} {idx : IndexData} {adj : AdjData}
    {pd : PiecesData} {has : String → Bool} {md : Metadata}
    {missing : List String}
    (h : assembleStage numPieces idx adj pd has = .ok (md, missing)) :
    ∃ sorted ps,
      sortKeys pd = .ok sorted ∧
      buildPieces (idx.image_width.getD 0) (idx.image_height.getD 0) adj has
        sorted = .ok (ps, missing) ∧
      ps ≠ [] ∧
      md = { piece_count := ps.length
             image_width := idx.image_width.getD 0
             image_height := idx.image_height.getD 0
             requested_pieces := numPieces
             pieces := ps
             warning := if missing.isEmpty then none
                        else some (warningText missing) } := by
  unfold assembleStage at h
  split at h
  · exact Except.noConfusion h
  · rename_i sorted hs
    split at h
    · exact Except.noConfusion h
    · rename_i pr ps ms hb
      split at h
      · exact Except.noConfusion h
      · rename_i hne
        simp only [Except.ok.injEq, Prod.mk.injEq] at h
        obtain ⟨hmd, rfl⟩ := h
        refine ⟨sorted, ps, hs, hb, ?_, hmd.symm⟩
        intro hnil
        exact hne (by simp [hnil])

lemma runMain_ok_inv {argv : List String} {env : RunEnv} {md : Metadata}
    {missing : List String} (h : runMain argv env = .ok (md, missing)) :
    ∃ n sel idx adj pd,
      selectSizeDir (sizeDirsOf env.dirEntries) = some sel ∧
      env.indexFile = .ok idx ∧
      env.adjacentFile = .ok adj ∧
      env.piecesFile sel = .ok pd ∧
      assembleStage n idx adj pd (env.rasterHas sel) = .ok (md, missing) := by
  unfold runMain runMainT at h
  split at h
  · exact Except.noConfusion h
  · rename_i x imagePath outputDir n hca
    split at h
    · split at h
      · exact Except.noConfusion h
      · split at h
        · exact Except.noConfusion h
        · split at h
          · exact Except.noConfusion h
          · rename_i sel hsel
            split at h
            · exact Except.noConfusion h
            · rename_i idx hidx
              split at h
              · exact Except.noConfusion h
              · rename_i adj hadj
                split at h
                · exact Except.noConfusion h
                · rename_i pd hpd
                  exact ⟨n, sel, idx, adj, pd, hsel,
                    loadJson_ok_inv hidx, loadJson_ok_inv hadj,
                    loadJson_ok_inv hpd, h⟩
    · exact Except.noConfusion h

lemma runMain_stage {i o nStr : String} {n : Int} {env : RunEnv} {w h : Nat}
    {serr sel : String} {idx : IndexData} {adj : AdjData} {pd : PiecesData}
    (hn : pyInt nStr = some n) (h2 : ¬ n < 2)
    (him : env.imageExists = true) (hpil : env.pillowInstalled = true)
    (hload : env.imageLoad = .ok (w, h)) (hcut : env.cutter = .exited 0 serr)
    (hsel : selectSizeDir (sizeDirsOf env.dirEntries) = some sel)
    (hidx : env.indexFile = .ok idx) (hadj : env.adjacentFile = .ok adj)
    (hpd : env.piecesFile sel = .ok pd) :
    runMain [i, o, nStr] env = assembleStage n idx adj pd (env.rasterHas sel) := by
  have hca : checkArgs [i, o, nStr] = .ok (i, o, n) := by
    simp [checkArgs, hn, if_neg h2]
  have hens : ensure_minimum_resolution env = .ok (resizeDims w h) := by
    simp [ensure_minimum_resolution, hpil, hload]
  have hrc : runCutter env = .ok () := by
    simp [runCutter, hcut]
  simp [runMain, runMainT, hca, him, hens, hrc, hsel, hidx, hadj, hpd, loadJson]

lemma runMain_noOutput {i o nStr : String} {n : Int} {env : RunEnv} {w h : Nat}
    {serr : String}
    (hn : pyInt nStr = some n) (h2 : ¬ n < 2)
    (him : env.imageExists = true) (hpil : env.pillowInstalled = true)
    (hload : env.imageLoad = .ok (w, h)) (hcut : env.cutter = .exited 0 serr)
    (hnosize : sizeDirsOf env.dirEntries = []) :
    runMain [i, o, nStr] env = .error .noOutput := by
  have hca : checkArgs [i, o, nStr] = .ok (i, o, n) := by
    simp [checkArgs, hn, if_neg h2]
  have hens : ensure_minimum_resolution env = .ok (resizeDims w h) := by
    simp [ensure_minimum_resolution, hpil, hload]
  have hrc : runCutter env = .ok () := by
    simp [runCutter, hcut]
  simp [runMain, runMainT, hca, him, hens, hrc, hnosize, selectSizeDir]

/-- C1: for every piece whose bounding box lies within the image, the code's
classification agrees with the specification's side-touch count rule
(a side touches iff its coordinate is within 2 pixels of its border;
≥2 touches ⇒ corner, exactly 1 ⇒ edge, 0 ⇒ interior); a piece with
`x1 = 0` and `y1 = 0` is always a corner, and a piece at `x1 = y1 = 5` on a
1000×1000 image whose other sides do not touch is interior. -/
theorem classification_follows_border_rule :
    (∀ imgW imgH x1 y1 x2 y2 : Int, 0 ≤ x1 → 0 ≤ y1 → x2 ≤ imgW → y2 ≤ imgH →
      classify imgW imgH x1 y1 x2 y2 = specClassify imgW imgH x1 y1 x2 y2) ∧
    (∀ imgW imgH x2 y2 : Int, classify imgW imgH 0 0 x2 y2 = .corner) ∧
    (∀ x2 y2 : Int, x2 < 998 → y2 < 998 →
      classify 1000 1000 5 5 x2 y2 = .interior) := by
  refine ⟨?_, ?_, ?_⟩
  · intro imgW imgH x1 y1 x2 y2 hx1 hy1 hx2 hy2
    have a1 : (|x1| ≤ 2) = (x1 ≤ 2) := by
      simp only [abs_le, eq_iff_iff]; omega
    have a2 : (|imgW - x2| ≤ 2) = (x2 ≥ imgW - 2) := by
      simp only [abs_le, eq_iff_iff]; omega
    have a3 : (|y1| ≤ 2) = (y1 ≤ 2) := by
      simp only [abs_le, eq_iff_iff]; omega
    have a4 : (|imgH - y2| ≤ 2) = (y2 ≥ imgH - 2) := by
      simp only [abs_le, eq_iff_iff]; omega
    unfold classify specClassify borderCount specTouchCount
    simp only [a1, a2, a3, a4]
  · intro imgW imgH x2 y2
    have hc : 2 ≤ borderCount imgW imgH 0 0 x2 y2 := by
      unfold borderCount
      split_ifs <;> omega
    unfold classify
    rw [if_pos hc]
  · intro x2 y2 hx2 hy2
    have hc : borderCount 1000 1000 5 5 x2 y2 = 0 := by
      unfold borderCount
      split_ifs <;> omega
    unfold classify
    rw [hc]
    rfl

/-- Witness for C1 at concrete inputs. -/
theorem classification_follows_border_rule_witness :
    classify 1000 1000 0 0 500 500 = specClassify 1000 1000 0 0 500 500 ∧
    classify 777 888 0 0 100 100 = .corner ∧
    classify 1000 1000 5 5 600 600 = .interior :=
  ⟨classification_follows_border_rule.1 1000 1000 0 0 500 500
      (by decide) (by decide) (by decide) (by decide),
   classification_follows_border_rule.2.1 777 888 100 100,
   classification_follows_border_rule.2.2 600 600 (by decide) (by decide)⟩

/-- C6 counterexample: a 250×999 image is resized to 500×2000, but uniform
scaling of the 250 side gives 250·2000/999 = 500.5005…, whose nearest
integer is 501 — the code truncates instead of rounding to nearest. -/
theorem resize_not_nearest_counterexample :
    resizeDims 250 999 = (500, 2000) ∧
    round ((250 * 2000 : ℚ) / 999) = 501 ∧ (500 : ℕ) ≠ 501 := by
  refine ⟨rfl, ?_, by decide⟩
  norm_num [round_eq]

/-- C6 amended: under exact (rational) arithmetic for the scale factor, an
image strictly below the 2000-pixel threshold is resized so its longer
dimension becomes exactly 2000 and the other dimension is scaled uniformly
and truncated (floored) to an integer pixel — not rounded to nearest. -/
theorem resize_reaches_threshold (w h : Nat) (hw : 0 < w) (hh : 0 < h)
    (hsmall : max w h < MIN_LONG_SIDE) :
    max (resizeDims w h).1 (resizeDims w h).2 = MIN_LONG_SIDE ∧
    (resizeDims w h).1 = w * MIN_LONG_SIDE / max w h ∧
    (resizeDims w h).2 = h * MIN_LONG_SIDE / max w h := by
  rcases le_total w h with hwh | hwh
  · have hL : max w h = h := max_eq_right hwh
    have hnot : ¬ MIN_LONG_SIDE ≤ h := by
      rw [hL] at hsmall; omega
    have hmain : h * MIN_LONG_SIDE / h = MIN_LONG_SIDE :=
      Nat.mul_div_cancel_left MIN_LONG_SIDE hh
    have hle : w * MIN_LONG_SIDE / h ≤ MIN_LONG_SIDE := by
      calc w * MIN_LONG_SIDE / h ≤ h * MIN_LONG_SIDE / h :=
            Nat.div_le_div_right (Nat.mul_le_mul_right _ hwh)
        _ = MIN_LONG_SIDE := hmain
    have hres : resizeDims w h =
        (w * MIN_LONG_SIDE / h, h * MIN_LONG_SIDE / h) := by
      unfold resizeDims
      rw [hL, if_neg hnot]
    rw [hres, hL]
    refine ⟨?_, rfl, rfl⟩
    show max (w * MIN_LONG_SIDE / h) (h * MIN_LONG_SIDE / h) = MIN_LONG_SIDE
    rw [hmain]
    exact max_eq_right hle
  · have hL : max w h = w := max_eq_left hwh
    have hnot : ¬ MIN_LONG_SIDE ≤ w := by
      rw [hL] at hsmall; omega
    have hmain : w * MIN_LONG_SIDE / w = MIN_LONG_SIDE :=
      Nat.mul_div_cancel_left MIN_LONG_SIDE hw
    have hle : h * MIN_LONG_SIDE / w ≤ MIN_LONG_SIDE := by
      calc h * MIN_LONG_SIDE / w ≤ w * MIN_LONG_SIDE / w :=
            Nat.div_le_div_right (Nat.mul_le_mul_right _ hwh)
        _ = MIN_LONG_SIDE := hmain
    have hres : resizeDims w h =
        (w * MIN_LONG_SIDE / w, h * MIN_LONG_SIDE / w) := by
      unfold resizeDims
      rw [hL, if_neg hnot]
    rw [hres, hL]
    refine ⟨?_, rfl, rfl⟩
    show max (w * MIN_LONG_SIDE / w) (h * MIN_LONG_SIDE / w) = MIN_LONG_SIDE
    rw [hmain]
    exact max_eq_left hle

/-- Witness for the amended C6: a 500×1000 image resizes to 1000×2000. -/
theorem resize_reaches_threshold_witness :
    max (resizeDims 500 1000).1 (resizeDims 500 1000).2 = MIN_LONG_SIDE ∧
    (resizeDims 500 1000).1 = 500 * MIN_LONG_SIDE / max 500 1000 ∧
    (resizeDims 500 1000).2 = 1000 * MIN_LONG_SIDE / max 500 1000 :=
  resize_reaches_threshold 500 1000 (by decide) (by decide) (by decide)

/-- C7: every failing run prints the single JSON object
`{"error": <message>}` to standard output and exits with status 1 ≠ 0;
there is no other failure signal. -/
theorem failure_output_contract (argv : List String) (env : RunEnv)
    (e : PuzzleError) (h : runMain argv env = .error e) :
    program argv env = (jsonErrObj (errorMessage e), 1) ∧
    (program argv env).2 ≠ 0 := by
  unfold program
  rw [h]
  exact ⟨rfl, by simp⟩

/-- Witness for C7: an invocation with the wrong arity. -/
theorem failure_output_contract_witness :
    program [] trivEnv = (jsonErrObj (errorMessage .usage), 1) ∧
    (program [] trivEnv).2 ≠ 0 :=
  failure_output_contract [] trivEnv .usage rfl

/-- C8: a non-integer piece-count argument, or one below 2, is rejected with
the corresponding error before the cutter subprocess invocation point is
ever reached (the spawn flag of `runMainT` stays `false`). -/
theorem reject_bad_count_before_spawn (env : RunEnv) (i o nStr : String)
    (hbad : pyInt nStr = none ∨ ∃ k, pyInt nStr = some k ∧ k < 2) :
    (runMainT [i, o, nStr] env).2 = false ∧
    (runMainT [i, o, nStr] env).1 =
      .error (match pyInt nStr with
              | none => .badPieceCount nStr
              | some k => .tooFewPieces k) := by
  rcases hbad with hnone | ⟨k, hk, hlt⟩
  · simp only [runMainT, checkArgs, hnone]
    exact ⟨trivial, trivial⟩
  · simp only [runMainT, checkArgs, hk, if_pos hlt]
    exact ⟨trivial, trivial⟩

/-- Witness for C8: requesting a single piece. -/
theorem reject_bad_count_before_spawn_witness :
    (runMainT ["img.png", "out", "1"] trivEnv).2 = false ∧
    (runMainT ["img.png", "out", "1"] trivEnv).1 =
      .error (match pyInt "1" with
              | none => .badPieceCount "1"
              | some k => .tooFewPieces k) :=
  reject_bad_count_before_spawn trivEnv "img.png" "out" "1"
    (Or.inr ⟨1, rfl, by decide⟩)

lemma sortKeys_ok_inv {pd : PiecesData}
    {sorted : List (Int × String × List Int)}
    (h : sortKeys pd = .ok sorted) :
    List.Sorted (fun a b => a.1 ≤ b.1) sorted ∧
    List.Perm (sorted.map (fun e => e.2.1)) (pd.map (fun e => e.1)) ∧
    sorted.length = pd.length := by
  unfold sortKeys at h
  split at h
  · exact Except.noConfusion h
  · rename_i l hl
    cases h
    obtain ⟨hkeys, hlen⟩ := parseKeys_keys hl
    haveI : IsTotal (Int × String × List Int) (fun a b => a.1 ≤ b.1) :=
      ⟨fun a b => le_total a.1 b.1⟩
    haveI : IsTrans (Int × String × List Int) (fun a b => a.1 ≤ b.1) :=
      ⟨fun _ _ _ hab hbc => le_trans hab hbc⟩
    refine ⟨List.sorted_insertionSort _ _, ?_, ?_⟩
    · exact ((List.perm_insertionSort _ _).map _).trans (hkeys ▸ List.Perm.refl _)
    · rw [(List.perm_insertionSort _ _).length_eq, hlen]

/-- C2: on every successful run, `piece_count` equals the length of the
`pieces` array; every listed piece's raster image existed (so it was copied)
and is not recorded missing; every cutter piece id whose raster image was
absent is excluded from the array and recorded in the missing list instead. -/
theorem piece_count_matches_pieces_array (argv : List String) (env : RunEnv)
    (md : Metadata) (missing : List String)
    (h : runMain argv env = .ok (md, missing)) :
    md.piece_count = md.pieces.length ∧
    ∃ sel pd,
      selectSizeDir (sizeDirsOf env.dirEntries) = some sel ∧
      env.piecesFile sel = .ok pd ∧
      (∀ p ∈ md.pieces, env.rasterHas sel p.pid = true ∧ p.pid ∉ missing) ∧
      (∀ k ∈ pd.map (fun e => e.1), env.rasterHas sel k = false →
        k ∈ missing ∧ k ∉ md.pieces.map (fun p => p.pid)) ∧
      (∀ m ∈ missing, env.rasterHas sel m = false) := by
  obtain ⟨n, sel, idx, adj, pd, hsel, hidx, hadj, hpd, hasm⟩ := runMain_ok_inv h
  obtain ⟨sorted, ps, hs, hb, hne, hmd⟩ := assembleStage_ok_inv hasm
  obtain ⟨_, hperm, _⟩ := sortKeys_ok_inv hs
  obtain ⟨h1, h2, h3, _, _⟩ := buildPieces_ok_spec hb
  subst hmd
  refine ⟨rfl, sel, pd, hsel, hpd, ?_, ?_, ?_⟩
  · intro p hp
    have hin : p.pid ∈ ps.map (fun p => p.pid) := List.mem_map_of_mem _ hp
    rw [h1] at hin
    obtain ⟨e, he, heq⟩ := List.mem_map.mp hin
    have hq : env.rasterHas sel e.2.1 = true := (List.mem_filter.mp he).2
    constructor
    · rw [← heq]
      exact hq
    · intro hmem
      rw [h3] at hmem
      obtain ⟨e', he', heq'⟩ := List.mem_map.mp hmem
      have hq' := (List.mem_filter.mp he').2
      rw [heq', ← heq] at hq'
      simp [hq] at hq'
  · intro k hk hkfalse
    have hk' : k ∈ sorted.map (fun e => e.2.1) := hperm.mem_iff.mpr hk
    obtain ⟨e, he, heq⟩ := List.mem_map.mp hk'
    constructor
    · rw [h3]
      refine List.mem_map.mpr ⟨e, List.mem_filter.mpr ⟨he, ?_⟩, heq⟩
      rw [heq, hkfalse]
      rfl
    · intro hmem
      rw [h1] at hmem
      obtain ⟨e', he', heq'⟩ := List.mem_map.mp hmem
      have hq' := (List.mem_filter.mp he').2
      rw [heq'] at hq'
      rw [hkfalse] at hq'
      exact Bool.noConfusion hq'
  · intro m hm
    rw [h3] at hm
    obtain ⟨e, he, heq⟩ := List.mem_map.mp hm
    have hq := (List.mem_filter.mp he).2
    rw [heq] at hq
    simpa using hq

/-- Witness for C2 on a concrete successful run. -/
theorem piece_count_matches_pieces_array_witness :
    mdOk.piece_count = mdOk.pieces.length ∧
    ∃ sel pd,
      selectSizeDir (sizeDirsOf envOk.dirEntries) = some sel ∧
      envOk.piecesFile sel = .ok pd ∧
      (∀ p ∈ mdOk.pieces, envOk.rasterHas sel p.pid = true ∧
        p.pid ∉ (["2"] : List String)) ∧
      (∀ k ∈ pd.map (fun e => e.1), envOk.rasterHas sel k = false →
        k ∈ (["2"] : List String) ∧ k ∉ mdOk.pieces.map (fun p => p.pid)) ∧
      (∀ m ∈ (["2"] : List String), envOk.rasterHas sel m = false) :=
  piece_count_matches_pieces_array ["img.png", "out", "10"] envOk mdOk ["2"] rfl

/-- C3 counterexample: a run where the cutter produced 2 pieces against 10
requested, one of them missing: the warning is present, yet
`piece_count = 1 ≠ 9 = requested_pieces - missing`. -/
theorem piece_count_vs_requested_counterexample :
    runMain ["img.png", "out", "10"] envOk = .ok (mdOk, ["2"]) ∧
    mdOk.warning.isSome = true ∧
    mdOk.piece_count = 1 ∧ mdOk.requested_pieces = 10 ∧
    (mdOk.piece_count : Int) ≠
      mdOk.requested_pieces - ((["2"] : List String).length : Int) :=
  ⟨rfl, rfl, rfl, rfl, by decide⟩

/-- C3 amended: on every successful run, `piece_count` plus the number of
missing ids equals the number of entries in the cutter's piece-geometry map
(`pieces.json`) — not the requested piece count, which the cutter need not
honour. -/
theorem piece_count_partition (argv : List String) (env : RunEnv)
    (md : Metadata) (missing : List String) (sel : String) (pd : PiecesData)
    (hsel : selectSizeDir (sizeDirsOf env.dirEntries) = some sel)
    (hpd : env.piecesFile sel = .ok pd)
    (h : runMain argv env = .ok (md, missing)) :
    md.piece_count + missing.length = pd.length := by
  obtain ⟨n, sel', idx, adj, pd', hsel', hidx, hadj, hpd', hasm⟩ :=
    runMain_ok_inv h
  rw [hsel] at hsel'
  obtain rfl : sel = sel' := Option.some.inj hsel'
  rw [hpd] at hpd'
  obtain rfl : pd = pd' := by
    cases hpd'
    rfl
  obtain ⟨sorted, ps, hs, hb, hne, hmd⟩ := assembleStage_ok_inv hasm
  obtain ⟨_, _, hlen⟩ := sortKeys_ok_inv hs
  obtain ⟨_, _, _, h4, _⟩ := buildPieces_ok_spec hb
  subst hmd
  show ps.length + missing.length = pd.length
  omega

/-- Witness for the amended C3 on a concrete run. -/
theorem piece_count_partition_witness :
    mdOk.piece_count + (["2"] : List String).length = pdOk.length :=
  piece_count_partition ["img.png", "out", "10"] envOk mdOk ["2"] "size-100"
    pdOk rfl rfl rfl

/-- C4: once a run reaches the assembly stage, a piece id whose raster image
is absent is recorded in the missing list and excluded from the pieces array
without aborting the run, and the emitted document then carries the warning
listing the missing ids; but when every piece image is absent (zero usable
pieces), the run fails with the empty-result error instead of succeeding. -/
theorem missing_recoverable_empty_fatal (i o nStr : String) (n : Int)
    (env : RunEnv) (w h : Nat) (serr sel : String) (idx : IndexData)
    (adj : AdjData) (pd : PiecesData)
    (hn : pyInt nStr = some n) (h2 : ¬ n < 2)
    (him : env.imageExists = true) (hpil : env.pillowInstalled = true)
    (hload : env.imageLoad = .ok (w, h)) (hcut : env.cutter = .exited 0 serr)
    (hsel : selectSizeDir (sizeDirsOf env.dirEntries) = some sel)
    (hidx : env.indexFile = .ok idx) (hadj : env.adjacentFile = .ok adj)
    (hpd : env.piecesFile sel = .ok pd) :
    (∀ md missing, runMain [i, o, nStr] env = .ok (md, missing) →
      (∀ k ∈ pd.map (fun e => e.1), env.rasterHas sel k = false →
        k ∈ missing ∧ k ∉ md.pieces.map (fun p => p.pid)) ∧
      (missing ≠ [] → md.warning = some (warningText missing))) ∧
    ((∃ l, parseKeys pd = some l) →
      (∀ k ∈ pd.map (fun e => e.1), env.rasterHas sel k = false) →
      runMain [i, o, nStr] env = .error .emptyResult) := by
  constructor
  · intro md missing hok
    obtain ⟨_, ⟨sel', pd', hsel', hpd', _, hexcl, _⟩⟩ :=
      piece_count_matches_pieces_array _ _ _ _ hok
    rw [hsel] at hsel'
    obtain rfl : sel = sel' := Option.some.inj hsel'
    rw [hpd] at hpd'
    obtain rfl : pd = pd' := by
      cases hpd'
      rfl
    refine ⟨hexcl, ?_⟩
    intro hne
    obtain ⟨n', sel'', idx', adj', pd'', _, _, _, _, hasm⟩ := runMain_ok_inv hok
    obtain ⟨sorted, ps, hs, hb, _, hmd⟩ := assembleStage_ok_inv hasm
    subst hmd
    show (if missing.isEmpty then none else some (warningText missing)) =
      some (warningText missing)
    rw [if_neg (by simpa using hne)]
  · rintro ⟨l, hl⟩ hall
    rw [runMain_stage hn h2 him hpil hload hcut hsel hidx hadj hpd]
    have hall' : ∀ e ∈ l.insertionSort (fun a b => a.1 ≤ b.1),
        env.rasterHas sel e.2.1 = false := by
      intro e he
      have he' : e ∈ l := (List.perm_insertionSort _ _).subset he
      refine hall _ ?_
      rw [← (parseKeys_keys hl).1]
      exact List.mem_map_of_mem _ he'
    simp [assembleStage, sortKeys, hl, buildPieces_all_missing hall']

/-- Witness for C4 on a concrete run (piece `"2"`'s image is absent). -/
theorem missing_recoverable_empty_fatal_witness :
    (∀ md missing, runMain ["img.png", "out", "10"] envOk = .ok (md, missing) →
      (∀ k ∈ pdOk.map (fun e => e.1), envOk.rasterHas "size-100" k = false →
        k ∈ missing ∧ k ∉ md.pieces.map (fun p => p.pid)) ∧
      (missing ≠ [] → md.warning = some (warningText missing))) ∧
    ((∃ l, parseKeys pdOk = some l) →
      (∀ k ∈ pdOk.map (fun e => e.1), envOk.rasterHas "size-100" k = false) →
      runMain ["img.png", "out", "10"] envOk = .error .emptyResult) :=
  missing_recoverable_empty_fatal "img.png" "out" "10" 10 envOk 3000 2000 ""
    "size-100" ⟨some 3000, some 2000⟩ [("1", [2]), ("2", [1])] pdOk
    rfl (by decide) rfl rfl rfl rfl rfl rfl rfl rfl

/-- C5: `parse_size_dir` reads the integer after the dash (non-parseable
suffix ⇒ 0); for every non-empty list of size-tier directory names the
selected entry is a member whose parsed value is maximal; an empty list
selects nothing, and a run whose cutter output has no `size-` subdirectory
fails with the no-output error. -/
theorem size_tier_selection :
    (parse_size_dir "size-100" = 100 ∧ parse_size_dir "size-blah" = 0 ∧
      parse_size_dir "sizeX" = 0) ∧
    (∀ ds : List String, ds ≠ [] →
      ∃ sel, selectSizeDir ds = some sel ∧ sel ∈ ds ∧
        ∀ d ∈ ds, parse_size_dir d ≤ parse_size_dir sel) ∧
    selectSizeDir [] = none ∧
    (∀ (i o nStr : String) (n : Int) (env : RunEnv) (w h : Nat)
      (serr : String),
      pyInt nStr = some n → ¬ n < 2 → env.imageExists = true →
      env.pillowInstalled = true → env.imageLoad = .ok (w, h) →
      env.cutter = .exited 0 serr → sizeDirsOf env.dirEntries = [] →
      runMain [i, o, nStr] env = .error .noOutput) := by
  refine ⟨⟨by decide, by decide, by decide⟩,
    fun ds hne => selectSizeDir_spec hne, rfl, ?_⟩
  intro i o nStr n env w h serr hn h2 him hpil hload hcut hnosize
  exact runMain_noOutput hn h2 him hpil hload hcut hnosize

/-- Witness for C5: a concrete tier list and a run with no tier directory. -/
theorem size_tier_selection_witness :
    (∃ sel, selectSizeDir ["size-33", "size-100"] = some sel ∧
      sel ∈ ["size-33", "size-100"] ∧
      ∀ d ∈ ["size-33", "size-100"], parse_size_dir d ≤ parse_size_dir sel) ∧
    runMain ["img.png", "out", "10"] envNoSize = .error .noOutput :=
  ⟨size_tier_selection.2.1 ["size-33", "size-100"] (by decide),
   size_tier_selection.2.2.2 "img.png" "out" "10" 10 envNoSize 3000 2000 ""
     rfl (by decide) rfl rfl rfl rfl rfl⟩

/-- C9: on every successful run, the emitted pieces array is ordered by
ascending numeric id (keys are compared through `int()`, not as strings). -/
theorem pieces_sorted_by_numeric_id (argv : List String) (env : RunEnv)
    (md : Metadata) (missing : List String)
    (h : runMain argv env = .ok (md, missing)) :
    List.Sorted (· ≤ ·) (md.pieces.map (fun p => p.id)) := by
  obtain ⟨n, sel, idx, adj, pd, hsel, hidx, hadj, hpd, hasm⟩ := runMain_ok_inv h
  obtain ⟨sorted, ps, hs, hb, hne, hmd⟩ := assembleStage_ok_inv hasm
  obtain ⟨hsorted, _, _⟩ := sortKeys_ok_inv hs
  obtain ⟨_, h2, _, _, _⟩ := buildPieces_ok_spec hb
  subst hmd
  show List.Sorted (· ≤ ·) (ps.map (fun p => p.id))
  rw [h2]
  have hfil : List.Sorted (fun a b => a.1 ≤ b.1)
      (sorted.filter (fun e => env.rasterHas sel e.2.1)) :=
    List.Pairwise.sublist (List.filter_sublist _) hsorted
  exact List.pairwise_map.mpr hfil

/-- Witness for C9 on a concrete run. -/
theorem pieces_sorted_by_numeric_id_witness :
    List.Sorted (· ≤ ·) (mdOk.pieces.map (fun p => p.id)) :=
  pieces_sorted_by_numeric_id ["img.png", "out", "10"] envOk mdOk ["2"] rfl

/-- C10 counterexample: with `image_width` present (5000) and only
`image_height` absent, the emitted `image_width` is 5000 ≠ 0 and an inner
piece is classified `edge`, not `corner` — the claim's consequent fails when
only one of the two keys is missing. -/
theorem missing_one_dim_counterexample :
    (runMain ["img.png", "out", "4"] envHalfDims).toOption.map
        (fun r => (r.1.image_width, r.1.image_height,
          r.1.pieces.map (fun p => p.type))) =
      some (5000, 0, [.edge]) ∧
    (5000 : Int) ≠ 0 ∧ PieceType.edge ≠ .corner :=
  ⟨rfl, by decide, by decide⟩

/-- C10 amended: when the cutter's index lacks BOTH dimension keys, 0 is
substituted for each, the right- and bottom-border tests hold for every
piece with non-negative `x2`, `y2`, so every emitted piece is classified
`corner`, and the emitted `image_width`/`image_height` are 0. -/
theorem missing_both_dims_all_corner (argv : List String) (env : RunEnv)
    (md : Metadata) (missing : List String)
    (hidx : env.indexFile = .ok ⟨none, none⟩)
    (h : runMain argv env = .ok (md, missing)) :
    md.image_width = 0 ∧ md.image_height = 0 ∧
    ∀ p ∈ md.pieces, 0 ≤ p.x2 → 0 ≤ p.y2 → p.type = .corner := by
  obtain ⟨n, sel, idx, adj, pd, hsel, hidx', hadj, hpd, hasm⟩ := runMain_ok_inv h
  rw [hidx] at hidx'
  obtain rfl : idx = ⟨none, none⟩ := by
    cases hidx'
    rfl
  obtain ⟨sorted, ps, hs, hb, hne, hmd⟩ := assembleStage_ok_inv hasm
  obtain ⟨_, _, _, _, h5⟩ := buildPieces_ok_spec hb
  subst hmd
  refine ⟨rfl, rfl, ?_⟩
  intro p hp hx2 hy2
  have ht := h5 p hp
  rw [ht]
  show classify 0 0 p.x1 p.y1 p.x2 p.y2 = .corner
  have hc : 2 ≤ borderCount 0 0 p.x1 p.y1 p.x2 p.y2 := by
    unfold borderCount
    split_ifs <;> omega
  unfold classify
  rw [if_pos hc]

/-- Witness for the amended C10 on a concrete run with both keys absent. -/
theorem missing_both_dims_all_corner_witness :
    mdNoDims.image_width = 0 ∧ mdNoDims.image_height = 0 ∧
    ∀ p ∈ mdNoDims.pieces, 0 ≤ p.x2 → 0 ≤ p.y2 → p.type = .corner :=
  missing_both_dims_all_corner ["img.png", "out", "4"] envNoDims mdNoDims []
    rfl rfl

end GeneratePuzzle
